import Mathlib

/-!
Verification of the WCAG contrast / color-blindness analysis engine of
`VisionDeficient24ColorPaletteContrastAnalysis.py`.

Embedding conventions:
* Python floats are modelled as exact rationals (`ℚ`) and, where the sRGB
  gamma exponent `** 2.4` forces real powers, as exact reals (`ℝ`).
* A Python exception (`ValueError` from `int(·, 16)`, `ZeroDivisionError`
  from `/`) is modelled as `Option.none`.
* The module-level `COLORS` global that the matrix / pairing functions read
  is made an explicit `colors` parameter; the concrete palette is `COLORS`.
-/

namespace VD24

/-- Numeric value of one hexadecimal digit (`0`-`9`, `a`-`f`, `A`-`F`). -/
def hexVal (c : Char) : ℕ :=
  if c.isDigit then c.toNat - Char.toNat '0'
  else if 'a' ≤ c ∧ c ≤ 'f' then c.toNat - Char.toNat 'a' + 10
  else if 'A' ≤ c ∧ c ≤ 'F' then c.toNat - Char.toNat 'A' + 10
  else 0

/-- Whether a character is a hexadecimal digit. -/
def isHexDig (c : Char) : Bool :=
  c.isDigit || ('a' ≤ c && c ≤ 'f') || ('A' ≤ c && c ≤ 'F')

/-- Model of the hex-digit core of Python `int(s, 16)` on the character list
`s`: `none` models the `ValueError` raised on an empty or non-hexadecimal
string.  The Python builtin additionally tolerates surrounding whitespace, a
sign, a base marker and inner underscores, which this model rejects; the
theorems below therefore never use this model's rejection behavior except on
the empty string, where `int("", 16)` does raise — on acceptance of hex-digit
strings and rejection of the empty string the model is exact. -/
def pyIntHex (l : List Char) : Option ℕ :=
  if l ≠ [] ∧ l.all isHexDig then
    some (l.foldl (fun a c => 16 * a + hexVal c) 0)
  else none

/-- Python slice `l[i : i+2]`: clamped, never out of bounds. -/
def slice2 (l : List Char) (i : ℕ) : List Char := (l.drop i).take 2

/-- Python `hex_color.lstrip('#')`: removes every leading `#` character. -/
def lstripHash (s : String) : List Char := s.data.dropWhile (· = '#')

/-- `hex_to_rgb` (VisionDeficient24ColorPaletteContrastAnalysis.py, lines
35-38): `hex_color.lstrip('#')` removes every leading `#`, then the character
groups `[0:2]`, `[2:4]`, `[4:6]` are parsed as base-16 integers.  There is no
length check; `none` models the `ValueError` raised when a group is empty or
contains a non-hex character. -/
def hex_to_rgb (s : String) : Option (ℕ × ℕ × ℕ) :=
  match pyIntHex (slice2 (lstripHash s) 0), pyIntHex (slice2 (lstripHash s) 2),
        pyIntHex (slice2 (lstripHash s) 4) with
  | some r, some g, some b => some (r, g, b)
  | _, _, _ => none

namespace LayerAudit

/-- `hex_to_rgb` (LayerAudit/BaselineAuditstoJSON.py, lines 21-26): unlike
the main module's variant, this one checks `len(hex_color) == 6` after
stripping and RETURNS the value `None` (inner `none`) on any other length,
parsing only 6-character remainders.  The outer `Option` models an exception
(`ValueError` from a non-hex group); `some none` is the silently returned
Python `None`. -/
def hex_to_rgb (s : String) : Option (Option (ℕ × ℕ × ℕ)) :=
  if (lstripHash s).length = 6 then
    match pyIntHex (slice2 (lstripHash s) 0), pyIntHex (slice2 (lstripHash s) 2),
          pyIntHex (slice2 (lstripHash s) 4) with
    | some r, some g, some b => some (some (r, g, b))
    | _, _, _ => none
  else some none

end LayerAudit

/-- The inner `adjust` of `rgb_to_luminance` (lines 42-47): the channel is
divided by 255 and gamma-corrected.  The branch test is decided on exact
rationals; the power `** 2.4` is the real power `rpow`. -/
noncomputable def adjust (c : ℚ) : ℝ :=
  if c / 255 ≤ 0.03928 then (c : ℝ) / 255 / 12.92
  else (((c : ℝ) / 255 + 0.055) / 1.055) ^ (2.4 : ℝ)

/-- `rgb_to_luminance` (lines 40-53): WCAG relative luminance. -/
noncomputable def rgb_to_luminance (r g b : ℚ) : ℝ :=
  0.2126 * adjust r + 0.7152 * adjust g + 0.0722 * adjust b

/-- `calculate_contrast_ratio` (lines 152-163): WCAG contrast ratio between
two hex color strings; `none` models the exception propagated from
`hex_to_rgb` on a malformed color. -/
noncomputable def calculate_contrast_ratio (color1 color2 : String) : Option ℝ :=
  match hex_to_rgb color1, hex_to_rgb color2 with
  | some (r1, g1, b1), some (r2, g2, b2) =>
    let lum1 := rgb_to_luminance r1 g1 b1
    let lum2 := rgb_to_luminance r2 g2 b2
    some ((max lum1 lum2 + 0.05) / (min lum1 lum2 + 0.05))
  | _, _ => none

/-- `get_contrast_rating` (lines 165-175). -/
noncomputable def get_contrast_rating (q : ℝ) : String :=
  if q ≥ 7.0 then "AAA"
  else if q ≥ 4.5 then "AA"
  else if q ≥ 3.0 then "AA18"
  else "Fail"

/-- Python `int(·)` on a rational: truncation toward zero. -/
def pyTrunc (q : ℚ) : ℤ := if 0 ≤ q then ⌊q⌋ else ⌈q⌉

/-- `simulate_color_blindness` (lines 55-89).  Channels are normalized to
`[0,1]`, one of three fixed matrices is applied, and the result is scaled
back with `int(· * 255)` (`pyTrunc`).  For an unrecognized `cb_type` the
(normalized) channels are scaled back without truncation, exactly as the
final `else` branch does. -/
def simulate_color_blindness (r g b : ℚ) (cb_type : String) : ℚ × ℚ × ℚ :=
  let r' := r / 255
  let g' := g / 255
  let b' := b / 255
  if cb_type = "deuteranopia" then
    let sim_r := 0.625 * r' + 0.375 * g' + 0.0 * b'
    let sim_g := 0.7 * r' + 0.3 * g' + 0.0 * b'
    let sim_b := 0.0 * r' + 0.3 * g' + 0.7 * b'
    ((pyTrunc (sim_r * 255) : ℚ), (pyTrunc (sim_g * 255) : ℚ), (pyTrunc (sim_b * 255) : ℚ))
  else if cb_type = "protanopia" then
    let sim_r := 0.567 * r' + 0.433 * g' + 0.0 * b'
    let sim_g := 0.558 * r' + 0.442 * g' + 0.0 * b'
    let sim_b := 0.0 * r' + 0.242 * g' + 0.758 * b'
    ((pyTrunc (sim_r * 255) : ℚ), (pyTrunc (sim_g * 255) : ℚ), (pyTrunc (sim_b * 255) : ℚ))
  else if cb_type = "tritanopia" then
    let sim_r := 0.95 * r' + 0.05 * g' + 0.0 * b'
    let sim_g := 0.0 * r' + 0.433 * g' + 0.567 * b'
    let sim_b := 0.0 * r' + 0.475 * g' + 0.525 * b'
    ((pyTrunc (sim_r * 255) : ℚ), (pyTrunc (sim_g * 255) : ℚ), (pyTrunc (sim_b * 255) : ℚ))
  else
    (r' * 255, g' * 255, b' * 255)

/-- `calculate_cb_contrast_ratio` (lines 91-107): contrast ratio of the two
colors after simulating a color-vision deficiency on both. -/
noncomputable def calculate_cb_contrast_ratio (color1 color2 cb_type : String) : Option ℝ :=
  match hex_to_rgb color1, hex_to_rgb color2 with
  | some (r1, g1, b1), some (r2, g2, b2) =>
    let s1 := simulate_color_blindness r1 g1 b1 cb_type
    let s2 := simulate_color_blindness r2 g2 b2 cb_type
    let lum1 := rgb_to_luminance s1.1 s1.2.1 s1.2.2
    let lum2 := rgb_to_luminance s2.1 s2.2.1 s2.2.2
    some ((max lum1 lum2 + 0.05) / (min lum1 lum2 + 0.05))
  | _, _ => none

/-- One record of the `pairings` list built by `get_accessible_pairings`
(lines 203-210): the dict with keys `color1`, `name1`, `color2`, `name2`,
`ratio`, `rating`.  The ratio field is named `rval` (Lean field access through
a dot is restricted here); it is the dict entry `'ratio'`. -/
structure Pairing where
  color1 : String
  name1 : String
  color2 : String
  name2 : String
  rval : ℝ
  rating : String

/-- `create_contrast_matrix` (lines 177-191), with the module-level `COLORS`
list as the parameter `colors`.  The diagonal is `None` by index equality;
every other entry is `calculate_contrast_ratio` of the two hex strings
(which is itself `none` only on a malformed color, where Python would have
raised out of the whole construction). -/
noncomputable def create_contrast_matrix (colors : List (String × String)) :
    List (List (Option ℝ)) :=
  colors.enum.map fun p =>
    colors.enum.map fun q =>
      if p.1 = q.1 then none else calculate_contrast_ratio p.2.1 q.2.1

/-- The pair-collection loop of `get_accessible_pairings` (lines 195-210)
before the final sort: for indices `i < j` the matrix entry is read and the
pair is kept when its rating is in `["AA18", "AA", "AAA"]`.  A missing or
`None` matrix entry (where Python would raise) yields no record. -/
noncomputable def accessible_pairs_unsorted (colors : List (String × String))
    (matrix : List (List (Option ℝ))) : List Pairing :=
  colors.enum.flatMap fun p =>
    colors.enum.filterMap fun q =>
      if p.1 < q.1 then
        ((matrix[p.1]?.bind fun row => row[q.1]?).bind fun e => e).bind fun r =>
          if get_contrast_rating r ∈ (["AA18", "AA", "AAA"] : List String) then
            some ⟨p.2.1, p.2.2, q.2.1, q.2.2, r, get_contrast_rating r⟩
          else none
      else none

/-- `get_accessible_pairings` (lines 193-215): the collected pairs are sorted
by `pairings.sort(key=lambda x: x['ratio'], reverse=True)`, i.e. a stable
sort into descending ratio order (`List.mergeSort` is stable). -/
noncomputable def get_accessible_pairings (colors : List (String × String))
    (matrix : List (List (Option ℝ))) : List Pairing :=
  (accessible_pairs_unsorted colors matrix).mergeSort fun a b =>
    decide (b.rval ≤ a.rval)

/-- `get_cb_accessible`'s per-pair test (lines 117-127): all three simulated
ratios must be at least `3.0`.  A `none` ratio (malformed color, where Python
would raise) counts as a failure. -/
noncomputable def cb_pass (color1 color2 cb_type : String) : Bool :=
  match calculate_cb_contrast_ratio color1 color2 cb_type with
  | some r => decide (3.0 ≤ r)
  | none => false

/-- The first component of `get_cb_accessible` (lines 109-150): the sublist of
pairings whose three simulated ratios all pass the `3.0` threshold. -/
noncomputable def get_cb_accessible (pairings : List Pairing) : List Pairing :=
  pairings.filter fun p =>
    cb_pass p.color1 p.color2 "deuteranopia" &&
    cb_pass p.color1 p.color2 "protanopia" &&
    cb_pass p.color1 p.color2 "tritanopia"

/-- Python float division: `none` models the `ZeroDivisionError` raised on a
zero divisor. -/
def pyDiv (a b : ℚ) : Option ℚ := if b = 0 then none else some (a / b)

/-- The summary-statistics fragment of `generate_html_report` (lines
468-476), with the `COLORS` global as the parameter `colors`.  The code
computes `len(pairings) / (len(COLORS) * (len(COLORS) - 1) // 2) * 100` and
the same with `len(cb_accessible)` — both divisions are performed
unconditionally, so a palette with fewer than two colors raises
`ZeroDivisionError` (modelled by `none`). -/
def summary_percentages (colors : List (String × String))
    (pairings cb_accessible : List Pairing) : Option (ℚ × ℚ) :=
  let total : ℕ := colors.length * (colors.length - 1) / 2
  (pyDiv (pairings.length : ℚ) (total : ℚ)).bind fun p1 =>
  (pyDiv (cb_accessible.length : ℚ) (total : ℚ)).bind fun p2 =>
  some (p1 * 100, p2 * 100)

/-- The module-level `COLORS` palette (lines 6-33). -/
def COLORS : List (String × String) :=
  [("#560133", "Mulberry"), ("#005745", "Deep Opal"),
   ("#9F0162", "Jazzberry Jam"), ("#009175", "Elf Green"),
   ("#EF0096", "Persian Rose"), ("#00CBA7", "Aquamarine"),
   ("#FF9DC8", "Amaranth Pink"), ("#86FFDE", "Light Turquoise"),
   ("#450270", "Christalle"), ("#00489E", "Tory Blue"),
   ("#8400CD", "French Violet"), ("#0079FA", "Azure"),
   ("#DA00FD", "Psychedelic Purple"), ("#00C2F9", "Capri"),
   ("#FF92FD", "Violet"), ("#7CFFFA", "Electric Blue"),
   ("#004002", "British Racing Green"), ("#7E0018", "Hot Chile"),
   ("#007702", "Bilbao"), ("#CD022D", "Amaranth Red"),
   ("#00B408", "Kelly Green"), ("#FF6E3A", "Burning Orange"),
   ("#00F407", "Radioactive Green"), ("#FFDC3D", "Gargoyle Gas"),
   ("#000000", "Black"), ("#FFFFFF", "White")]

/-- The deficiency-simulation step written the way the specification words
it, for comparison with `simulate_color_blindness`: apply a 3×3 matrix (row
coefficients given explicitly) to the channels normalized to `[0,1]`, then
multiply each output channel by 255 and truncate it to an integer. -/
def simulate_spec (r g b : ℚ)
    (m00 m01 m02 m10 m11 m12 m20 m21 m22 : ℚ) : ℤ × ℤ × ℤ :=
  (⌊(m00 * (r / 255) + m01 * (g / 255) + m02 * (b / 255)) * 255⌋,
   ⌊(m10 * (r / 255) + m11 * (g / 255) + m12 * (b / 255)) * 255⌋,
   ⌊(m20 * (r / 255) + m21 * (g / 255) + m22 * (b / 255)) * 255⌋)

/-- Cast an integer triple to a rational triple. -/
def castTriple (t : ℤ × ℤ × ℤ) : ℚ × ℚ × ℚ := ((t.1 : ℚ), (t.2.1 : ℚ), (t.2.2 : ℚ))

end VD24

namespace VD24

/-! ### Theorems -/

/-- C2: `get_contrast_rating` classifies a ratio as `AAA` iff it is at least
7.0, `AA` iff it is in `[4.5, 7.0)`, `AA18` iff it is in `[3.0, 4.5)` and
`Fail` iff it is below 3.0; every band is inclusive on its lower bound, the
bands cover all ratios, and in particular the boundary values 7.0, 4.5, 3.0
and 2.99 classify as `AAA`, `AA`, `AA18` and `Fail`. -/
theorem get_contrast_rating_spec :
    (∀ q : ℝ,
      (get_contrast_rating q = "AAA" ↔ 7.0 ≤ q) ∧
      (get_contrast_rating q = "AA" ↔ 4.5 ≤ q ∧ q < 7.0) ∧
      (get_contrast_rating q = "AA18" ↔ 3.0 ≤ q ∧ q < 4.5) ∧
      (get_contrast_rating q = "Fail" ↔ q < 3.0)) ∧
    get_contrast_rating 7.0 = "AAA" ∧ get_contrast_rating 4.5 = "AA" ∧
    get_contrast_rating 3.0 = "AA18" ∧ get_contrast_rating 2.99 = "Fail" := by
  have main : ∀ q : ℝ,
      (get_contrast_rating q = "AAA" ↔ 7.0 ≤ q) ∧
      (get_contrast_rating q = "AA" ↔ 4.5 ≤ q ∧ q < 7.0) ∧
      (get_contrast_rating q = "AA18" ↔ 3.0 ≤ q ∧ q < 4.5) ∧
      (get_contrast_rating q = "Fail" ↔ q < 3.0) := by
    intro q
    unfold get_contrast_rating
    split_ifs with h1 h2 h3
    · exact ⟨iff_of_true rfl h1,
        iff_of_false (by decide) (fun h => absurd h.2 (not_lt.mpr h1)),
        iff_of_false (by decide) (fun h => absurd h.2 (by linarith)),
        iff_of_false (by decide) (fun h => absurd h (by linarith))⟩
    · exact ⟨iff_of_false (by decide) (fun h => h1 h),
        iff_of_true rfl ⟨h2, not_le.mp h1⟩,
        iff_of_false (by decide) (fun h => absurd h.2 (not_lt.mpr h2)),
        iff_of_false (by decide) (fun h => absurd h (by linarith))⟩
    · exact ⟨iff_of_false (by decide) (fun h => h1 h),
        iff_of_false (by decide) (fun h => h2 h.1),
        iff_of_true rfl ⟨h3, not_le.mp h2⟩,
        iff_of_false (by decide) (fun h => absurd h (not_lt.mpr h3))⟩
    · exact ⟨iff_of_false (by decide) (fun h => h1 h),
        iff_of_false (by decide) (fun h => h2 h.1),
        iff_of_false (by decide) (fun h => h3 h.1),
        iff_of_true rfl (not_le.mp h3)⟩
  refine ⟨main, ?_, ?_, ?_, ?_⟩
  · exact (main 7.0).1.mpr (by norm_num)
  · exact (main 4.5).2.1.mpr (by norm_num)
  · exact (main 3.0).2.2.1.mpr (by norm_num)
  · exact (main 2.99).2.2.2.mpr (by norm_num)

/-- C10: for any deficiency argument other than the three recognized strings,
`simulate_color_blindness` returns the input channels unchanged (the final
`else` branch rescales the normalized channels without truncating) instead of
raising an error. -/
theorem simulate_color_blindness_unknown_type (r g b : ℚ) (t : String)
    (h1 : t ≠ "deuteranopia") (h2 : t ≠ "protanopia") (h3 : t ≠ "tritanopia") :
    simulate_color_blindness r g b t = (r, g, b) := by
  unfold simulate_color_blindness
  rw [if_neg h1, if_neg h2, if_neg h3]
  have h255 : (255 : ℚ) ≠ 0 := by norm_num
  rw [div_mul_cancel₀ r h255, div_mul_cancel₀ g h255, div_mul_cancel₀ b h255]

/-- C10 witness: the unrecognized type `"normal"` passes the channels
`(10, 20, 30)` through unchanged. -/
theorem simulate_color_blindness_unknown_type_witness :
    simulate_color_blindness 10 20 30 "normal" = (10, 20, 30) :=
  simulate_color_blindness_unknown_type 10 20 30 "normal"
    (by decide) (by decide) (by decide)

end VD24

namespace VD24

/-- Helper: on a nonnegative rational, Python truncation is the floor, and it
stays within `[0, 255]` when the input does. -/
theorem pyTrunc_mem_Icc (q : ℚ) (h0 : 0 ≤ q) (h255 : q ≤ 255) :
    0 ≤ (pyTrunc q : ℚ) ∧ (pyTrunc q : ℚ) ≤ 255 := by
  rw [pyTrunc, if_pos h0]
  constructor
  · exact_mod_cast Int.le_floor.mpr (by exact_mod_cast h0)
  · have h : ⌊q⌋ ≤ ⌊(255 : ℚ)⌋ := Int.floor_le_floor h255
    rw [show ⌊(255 : ℚ)⌋ = 255 by norm_num] at h
    exact_mod_cast h

/-- C1: on integer channels in `[0, 255]`, `simulate_color_blindness` computes
exactly the 3×3 matrix application stated in the specification — normalize
the channels to `[0,1]`, apply the deficiency matrix (Deuteranopia rows
0.625/0.375/0, 0.7/0.3/0, 0/0.3/0.7; Protanopia rows 0.567/0.433/0,
0.558/0.442/0, 0/0.242/0.758; Tritanopia rows 0.95/0.05/0, 0/0.433/0.567,
0/0.475/0.525), multiply by 255 and truncate (floor, not round) to an
integer (`simulate_spec`). -/
theorem simulate_color_blindness_eq_spec (r g b : ℕ)
    (hr : r ≤ 255) (hg : g ≤ 255) (hb : b ≤ 255) :
    simulate_color_blindness r g b "deuteranopia" =
      castTriple (simulate_spec r g b 0.625 0.375 0 0.7 0.3 0 0 0.3 0.7) ∧
    simulate_color_blindness r g b "protanopia" =
      castTriple (simulate_spec r g b 0.567 0.433 0 0.558 0.442 0 0 0.242 0.758) ∧
    simulate_color_blindness r g b "tritanopia" =
      castTriple (simulate_spec r g b 0.95 0.05 0 0 0.433 0.567 0 0.475 0.525) := by
  have hr0 : (0 : ℚ) ≤ (r : ℚ) := Nat.cast_nonneg r
  have hg0 : (0 : ℚ) ≤ (g : ℚ) := Nat.cast_nonneg g
  have hb0 : (0 : ℚ) ≤ (b : ℚ) := Nat.cast_nonneg b
  have trunc_eq : ∀ q : ℚ, 0 ≤ q → (pyTrunc q : ℚ) = (⌊q⌋ : ℚ) := by
    intro q hq
    rw [pyTrunc, if_pos hq]
  refine ⟨?_, ?_, ?_⟩
  · unfold simulate_color_blindness simulate_spec castTriple
    rw [if_pos rfl]
    simp only [Prod.mk.injEq]
    refine ⟨?_, ?_, ?_⟩ <;>
      · rw [trunc_eq _ (by positivity)]
        norm_num
  · unfold simulate_color_blindness simulate_spec castTriple
    rw [if_neg (by decide), if_pos rfl]
    simp only [Prod.mk.injEq]
    refine ⟨?_, ?_, ?_⟩ <;>
      · rw [trunc_eq _ (by positivity)]
        norm_num
  · unfold simulate_color_blindness simulate_spec castTriple
    rw [if_neg (by decide), if_neg (by decide), if_pos rfl]
    simp only [Prod.mk.injEq]
    refine ⟨?_, ?_, ?_⟩ <;>
      · rw [trunc_eq _ (by positivity)]
        norm_num

/-- C1 witness: the matrix form evaluated at channels `(200, 100, 50)`. -/
theorem simulate_color_blindness_eq_spec_witness :
    simulate_color_blindness 200 100 50 "deuteranopia" =
      castTriple (simulate_spec 200 100 50 0.625 0.375 0 0.7 0.3 0 0 0.3 0.7) ∧
    simulate_color_blindness 200 100 50 "protanopia" =
      castTriple (simulate_spec 200 100 50 0.567 0.433 0 0.558 0.442 0 0 0.242 0.758) ∧
    simulate_color_blindness 200 100 50 "tritanopia" =
      castTriple (simulate_spec 200 100 50 0.95 0.05 0 0 0.433 0.567 0 0.475 0.525) := by
  have h := simulate_color_blindness_eq_spec 200 100 50
    (by norm_num) (by norm_num) (by norm_num)
  exact_mod_cast h

/-- C8: on integer channels in `[0, 255]` and any of the three recognized
deficiency types, every output channel of `simulate_color_blindness` stays in
`[0, 255]`: each matrix row has nonnegative coefficients summing to 1, so no
clamping is needed. -/
theorem simulate_color_blindness_range (r g b : ℕ) (t : String)
    (hr : r ≤ 255) (hg : g ≤ 255) (hb : b ≤ 255)
    (ht : t = "deuteranopia" ∨ t = "protanopia" ∨ t = "tritanopia") :
    (0 ≤ (simulate_color_blindness r g b t).1 ∧
      (simulate_color_blindness r g b t).1 ≤ 255) ∧
    (0 ≤ (simulate_color_blindness r g b t).2.1 ∧
      (simulate_color_blindness r g b t).2.1 ≤ 255) ∧
    (0 ≤ (simulate_color_blindness r g b t).2.2 ∧
      (simulate_color_blindness r g b t).2.2 ≤ 255) := by
  have hr0 : (0 : ℚ) ≤ (r : ℚ) := Nat.cast_nonneg r
  have hg0 : (0 : ℚ) ≤ (g : ℚ) := Nat.cast_nonneg g
  have hb0 : (0 : ℚ) ≤ (b : ℚ) := Nat.cast_nonneg b
  have hr1 : (r : ℚ) ≤ 255 := by exact_mod_cast hr
  have hg1 : (g : ℚ) ≤ 255 := by exact_mod_cast hg
  have hb1 : (b : ℚ) ≤ 255 := by exact_mod_cast hb
  rcases ht with ht | ht | ht <;> subst ht
  · unfold simulate_color_blindness
    rw [if_pos rfl]
    exact ⟨pyTrunc_mem_Icc _ (by positivity) (by nlinarith),
      pyTrunc_mem_Icc _ (by positivity) (by nlinarith),
      pyTrunc_mem_Icc _ (by positivity) (by nlinarith)⟩
  · unfold simulate_color_blindness
    rw [if_neg (by decide), if_pos rfl]
    exact ⟨pyTrunc_mem_Icc _ (by positivity) (by nlinarith),
      pyTrunc_mem_Icc _ (by positivity) (by nlinarith),
      pyTrunc_mem_Icc _ (by positivity) (by nlinarith)⟩
  · unfold simulate_color_blindness
    rw [if_neg (by decide), if_neg (by decide), if_pos rfl]
    exact ⟨pyTrunc_mem_Icc _ (by positivity) (by nlinarith),
      pyTrunc_mem_Icc _ (by positivity) (by nlinarith),
      pyTrunc_mem_Icc _ (by positivity) (by nlinarith)⟩

/-- C8 witness: channel bounds at `(255, 255, 255)` under tritanopia. -/
theorem simulate_color_blindness_range_witness :
    (0 ≤ (simulate_color_blindness 255 255 255 "tritanopia").1 ∧
      (simulate_color_blindness 255 255 255 "tritanopia").1 ≤ 255) ∧
    (0 ≤ (simulate_color_blindness 255 255 255 "tritanopia").2.1 ∧
      (simulate_color_blindness 255 255 255 "tritanopia").2.1 ≤ 255) ∧
    (0 ≤ (simulate_color_blindness 255 255 255 "tritanopia").2.2 ∧
      (simulate_color_blindness 255 255 255 "tritanopia").2.2 ≤ 255) := by
  have h := simulate_color_blindness_range 255 255 255 "tritanopia"
    (by norm_num) (by norm_num) (by norm_num) (by decide)
  exact_mod_cast h

end VD24

namespace VD24

/-- Defining equation of `hex_to_rgb`, convenient for rewriting. -/
theorem hex_to_rgb_def (s : String) :
    hex_to_rgb s =
      match pyIntHex (slice2 (lstripHash s) 0), pyIntHex (slice2 (lstripHash s) 2),
            pyIntHex (slice2 (lstripHash s) 4) with
      | some r, some g, some b => some (r, g, b)
      | _, _, _ => none := rfl

/-- C3 counterexample: the claim says that after stripping `#` any remaining
length other than 6 is rejected, but `hex_to_rgb` accepts the 7-character
string `"1234567"` and silently ignores its seventh character. -/
theorem hex_to_rgb_accepts_length_seven :
    (lstripHash "1234567").length = 7 ∧
    hex_to_rgb "1234567" = some (18, 52, 86) := by
  constructor
  · rfl
  · rfl

/-- C3 (amended): the main module's `hex_to_rgb` strips ALL leading `#`
characters and has no length check.  A remainder of fewer than 5 characters
always raises (the `[4:6]` group is empty and `int("", 16)` raises); any
remainder of length at least 5 whose first six characters (or all five) are
hexadecimal digits is accepted — in particular exact length 6 is NOT
required — and a valid 6-hex-digit remainder yields the three base-16 parsed
channel values; failure is an exception, never a silent default color.
(Python's `int(·, 16)` additionally tolerates whitespace or a sign inside a
group, so some further non-hex-digit remainders of length at least 5 are also
accepted; nothing is asserted about those here.)  The `hex_to_rgb` variant in
`LayerAudit/BaselineAuditstoJSON.py` instead checks for length exactly 6 and
on any other length silently returns the value `None` — not a raised
`FormatError`. -/
theorem hex_to_rgb_spec (s : String) :
    ((lstripHash s).length ≤ 4 → hex_to_rgb s = none) ∧
    ((5 ≤ (lstripHash s).length ∧ ∀ c ∈ (lstripHash s).take 6, isHexDig c) →
      (hex_to_rgb s).isSome) ∧
    (∀ c0 c1 c2 c3 c4 c5 rest,
      lstripHash s = c0 :: c1 :: c2 :: c3 :: c4 :: c5 :: rest →
      isHexDig c0 = true → isHexDig c1 = true → isHexDig c2 = true →
      isHexDig c3 = true → isHexDig c4 = true → isHexDig c5 = true →
      hex_to_rgb s = some (16 * hexVal c0 + hexVal c1,
                           16 * hexVal c2 + hexVal c3,
                           16 * hexVal c4 + hexVal c5)) ∧
    ((lstripHash s).length ≠ 6 → LayerAudit.hex_to_rgb s = some none) := by
  refine ⟨?_, ?_, ?_, ?_⟩
  · intro h
    have h4 : slice2 (lstripHash s) 4 = [] := by
      simp only [slice2, List.take_eq_nil_iff]
      right
      rw [List.drop_eq_nil_iff]
      omega
    rw [hex_to_rgb_def, h4, show pyIntHex ([] : List Char) = none from rfl]
    cases pyIntHex (slice2 (lstripHash s) 0) <;>
      cases pyIntHex (slice2 (lstripHash s) 2) <;> rfl
  · rintro ⟨h5, hhex⟩
    rcases ht : lstripHash s with _ | ⟨a, _ | ⟨b, _ | ⟨c, _ | ⟨d, _ | ⟨e, _ | ⟨f, rest⟩⟩⟩⟩⟩⟩ <;>
      rw [ht] at h5 hhex <;>
      · rw [hex_to_rgb_def, ht]
        simp only [slice2, pyIntHex, List.drop_succ_cons, List.drop_zero, List.drop_nil,
          List.take_nil, List.take_succ_cons, List.take_zero, List.all_cons, List.all_nil,
          List.length_cons, List.length_nil] at *
        split_ifs <;> simp_all
  · intro c0 c1 c2 c3 c4 c5 rest ht h0 h1 h2 h3 h4 h5
    rw [hex_to_rgb_def, ht]
    simp only [slice2, pyIntHex, List.drop_succ_cons, List.drop_zero,
      List.take_succ_cons, List.take_zero, List.all_cons, List.all_nil,
      h0, h1, h2, h3, h4, h5, List.foldl_cons, List.foldl_nil]
    simp
  · intro h
    unfold LayerAudit.hex_to_rgb
    rw [if_neg h]

end VD24

namespace VD24

/-- Helper: gamma correction of a nonnegative channel is nonnegative. -/
theorem adjust_nonneg (c : ℚ) (hc : 0 ≤ c) : 0 ≤ adjust c := by
  have hcr : (0 : ℝ) ≤ (c : ℝ) := by exact_mod_cast hc
  unfold adjust
  split_ifs with h
  · exact div_nonneg (div_nonneg hcr (by norm_num)) (by norm_num)
  · exact Real.rpow_nonneg
      (div_nonneg (add_nonneg (div_nonneg hcr (by norm_num)) (by norm_num)) (by norm_num)) _

/-- Helper: relative luminance of nonnegative channels is nonnegative. -/
theorem rgb_to_luminance_nonneg (r g b : ℚ) (hr : 0 ≤ r) (hg : 0 ≤ g) (hb : 0 ≤ b) :
    0 ≤ rgb_to_luminance r g b := by
  have h1 := adjust_nonneg r hr
  have h2 := adjust_nonneg g hg
  have h3 := adjust_nonneg b hb
  unfold rgb_to_luminance
  linarith

/-- Helper: the contrast ratio of two successfully decoded colors, written
out through their luminances. -/
theorem calculate_contrast_ratio_eq (c1 c2 : String) (r1 g1 b1 r2 g2 b2 : ℕ)
    (h1 : hex_to_rgb c1 = some (r1, g1, b1)) (h2 : hex_to_rgb c2 = some (r2, g2, b2)) :
    calculate_contrast_ratio c1 c2 =
      some ((max (rgb_to_luminance r1 g1 b1) (rgb_to_luminance r2 g2 b2) + 0.05) /
            (min (rgb_to_luminance r1 g1 b1) (rgb_to_luminance r2 g2 b2) + 0.05)) := by
  unfold calculate_contrast_ratio
  rw [h1, h2]

/-- C6: for valid colors, the contrast ratio is symmetric in its two
arguments with exactly equal values, is always at least 1.0, and the
self-contrast ratio is exactly 1.0. -/
theorem calculate_contrast_ratio_props (A B : String)
    (hA : (hex_to_rgb A).isSome) (hB : (hex_to_rgb B).isSome) :
    (∃ q, calculate_contrast_ratio A B = some q ∧
          calculate_contrast_ratio B A = some q ∧ 1 ≤ q) ∧
    calculate_contrast_ratio A A = some 1 := by
  obtain ⟨⟨r1, g1, b1⟩, h1⟩ := Option.isSome_iff_exists.mp hA
  obtain ⟨⟨r2, g2, b2⟩, h2⟩ := Option.isSome_iff_exists.mp hB
  have l1 := rgb_to_luminance_nonneg r1 g1 b1
    (Nat.cast_nonneg _) (Nat.cast_nonneg _) (Nat.cast_nonneg _)
  have l2 := rgb_to_luminance_nonneg r2 g2 b2
    (Nat.cast_nonneg _) (Nat.cast_nonneg _) (Nat.cast_nonneg _)
  have hmin : (0 : ℝ) < min (rgb_to_luminance r1 g1 b1) (rgb_to_luminance r2 g2 b2) + 0.05 := by
    have := le_min l1 l2
    linarith
  constructor
  · refine ⟨(max (rgb_to_luminance r1 g1 b1) (rgb_to_luminance r2 g2 b2) + 0.05) /
        (min (rgb_to_luminance r1 g1 b1) (rgb_to_luminance r2 g2 b2) + 0.05),
      calculate_contrast_ratio_eq A B _ _ _ _ _ _ h1 h2, ?_, ?_⟩
    · rw [calculate_contrast_ratio_eq B A _ _ _ _ _ _ h2 h1, max_comm, min_comm]
    · rw [one_le_div hmin]
      have := min_le_max
        (a := rgb_to_luminance (r1 : ℚ) g1 b1) (b := rgb_to_luminance (r2 : ℚ) g2 b2)
      linarith
  · rw [calculate_contrast_ratio_eq A A _ _ _ _ _ _ h1 h1, max_self, min_self,
      div_self (by linarith : rgb_to_luminance (r1 : ℚ) g1 b1 + 0.05 ≠ 0)]

/-- C6 witness: symmetry, lower bound and self-contrast instantiated at
black and white. -/
theorem calculate_contrast_ratio_props_witness :
    (∃ q, calculate_contrast_ratio "#000000" "#FFFFFF" = some q ∧
          calculate_contrast_ratio "#FFFFFF" "#000000" = some q ∧ 1 ≤ q) ∧
    calculate_contrast_ratio "#000000" "#000000" = some 1 :=
  calculate_contrast_ratio_props "#000000" "#FFFFFF" (by decide) (by decide)

/-- C9: the contrast ratio of black and white is exactly 21: black has
relative luminance exactly 0, white exactly 1, and (1 + 0.05) / (0 + 0.05)
is exactly 21. -/
theorem calculate_contrast_ratio_black_white :
    calculate_contrast_ratio "#000000" "#FFFFFF" = some 21 := by
  have h1 : hex_to_rgb "#000000" = some (0, 0, 0) := by decide
  have h2 : hex_to_rgb "#FFFFFF" = some (255, 255, 255) := by decide
  rw [calculate_contrast_ratio_eq _ _ _ _ _ _ _ _ h1 h2]
  have ha0 : adjust (0 : ℚ) = 0 := by
    unfold adjust
    rw [if_pos (by norm_num)]
    norm_num
  have ha255 : adjust (255 : ℚ) = 1 := by
    unfold adjust
    rw [if_neg (by norm_num)]
    rw [show (((255 : ℚ) : ℝ) / 255 + 0.055) / 1.055 = 1 by norm_num, Real.one_rpow]
  have hl0 : rgb_to_luminance (0 : ℚ) 0 0 = 0 := by
    unfold rgb_to_luminance
    rw [ha0]
    ring
  have hl1 : rgb_to_luminance (255 : ℚ) 255 255 = 1 := by
    unfold rgb_to_luminance
    rw [ha255]
    norm_num
  push_cast
  rw [hl0, hl1,
    show max (0 : ℝ) 1 = 1 from max_eq_right (by norm_num),
    show min (0 : ℝ) 1 = 0 from min_eq_left (by norm_num)]
  norm_num

end VD24

namespace VD24

/-- Helper: the contrast ratio is symmetric in its arguments even including
the failure cases. -/
theorem calculate_contrast_ratio_comm (c1 c2 : String) :
    calculate_contrast_ratio c1 c2 = calculate_contrast_ratio c2 c1 := by
  unfold calculate_contrast_ratio
  rcases h1 : hex_to_rgb c1 with _ | ⟨⟨r1, g1, b1⟩⟩ <;>
    rcases h2 : hex_to_rgb c2 with _ | ⟨⟨r2, g2, b2⟩⟩ <;>
    simp [max_comm, min_comm]

/-- Helper: two valid colors always yield a contrast ratio. -/
theorem calculate_contrast_ratio_isSome (c1 c2 : String)
    (h1 : (hex_to_rgb c1).isSome) (h2 : (hex_to_rgb c2).isSome) :
    ∃ q, calculate_contrast_ratio c1 c2 = some q := by
  obtain ⟨⟨r1, g1, b1⟩, e1⟩ := Option.isSome_iff_exists.mp h1
  obtain ⟨⟨r2, g2, b2⟩, e2⟩ := Option.isSome_iff_exists.mp h2
  exact ⟨_, calculate_contrast_ratio_eq c1 c2 _ _ _ _ _ _ e1 e2⟩

/-- Helper: the matrix has one row per palette entry. -/
theorem create_contrast_matrix_length (colors : List (String × String)) :
    (create_contrast_matrix colors).length = colors.length := by
  simp [create_contrast_matrix]

/-- Helper: every row of the matrix has one entry per palette entry. -/
theorem create_contrast_matrix_row_length (colors : List (String × String)) :
    ∀ row ∈ create_contrast_matrix colors, row.length = colors.length := by
  intro row h
  simp only [create_contrast_matrix, List.mem_map] at h
  obtain ⟨p, -, rfl⟩ := h
  simp

/-- Helper: the `(i, j)` entry of the matrix in closed form. -/
theorem create_contrast_matrix_entry (colors : List (String × String)) (i j : ℕ)
    (hi : i < colors.length) (hj : j < colors.length) :
    (create_contrast_matrix colors)[i]?.bind (fun row => row[j]?) =
      some (if i = j then none
            else calculate_contrast_ratio (colors[i]).1 (colors[j]).1) := by
  simp [create_contrast_matrix, List.getElem?_map, List.getElem?_enum,
    List.getElem?_eq_getElem hi, List.getElem?_eq_getElem hj]

/-- C4: on a palette of `N` valid colors the contrast matrix is `N × N`, its
diagonal entries are `None`, every off-diagonal entry `(i, j)` is exactly
`calculate_contrast_ratio` of colors `i` and `j` (and is defined), and the
matrix is exactly symmetric: entry `(i, j)` equals entry `(j, i)`. -/
theorem create_contrast_matrix_spec (colors : List (String × String))
    (hvalid : ∀ p ∈ colors, (hex_to_rgb p.1).isSome) :
    (create_contrast_matrix colors).length = colors.length ∧
    (∀ row ∈ create_contrast_matrix colors, row.length = colors.length) ∧
    (∀ i j (hi : i < colors.length) (hj : j < colors.length),
      (i = j →
        (create_contrast_matrix colors)[i]?.bind (fun row => row[j]?) = some none) ∧
      (i ≠ j →
        ∃ q, (create_contrast_matrix colors)[i]?.bind (fun row => row[j]?) =
            some (some q) ∧
          calculate_contrast_ratio (colors[i]).1 (colors[j]).1 = some q) ∧
      (create_contrast_matrix colors)[i]?.bind (fun row => row[j]?) =
        (create_contrast_matrix colors)[j]?.bind (fun row => row[i]?)) := by
  refine ⟨create_contrast_matrix_length colors, create_contrast_matrix_row_length colors, ?_⟩
  intro i j hi hj
  refine ⟨?_, ?_, ?_⟩
  · intro hij
    rw [create_contrast_matrix_entry colors i j hi hj, if_pos hij]
  · intro hij
    obtain ⟨q, hq⟩ := calculate_contrast_ratio_isSome (colors[i]).1 (colors[j]).1
      (hvalid _ (List.getElem_mem hi)) (hvalid _ (List.getElem_mem hj))
    refine ⟨q, ?_, hq⟩
    rw [create_contrast_matrix_entry colors i j hi hj, if_neg hij, hq]
  · rw [create_contrast_matrix_entry colors i j hi hj,
      create_contrast_matrix_entry colors j i hj hi]
    by_cases hij : i = j
    · subst hij
      rfl
    · rw [if_neg hij, if_neg (Ne.symm hij), calculate_contrast_ratio_comm]

/-- C4 witness: on the two-color palette black/white the matrix is 2×2 and
its `(0, 1)` entry is the black/white contrast ratio. -/
theorem create_contrast_matrix_spec_witness :
    (create_contrast_matrix [("#000000", "Black"), ("#FFFFFF", "White")]).length = 2 ∧
    ∃ q, (create_contrast_matrix [("#000000", "Black"), ("#FFFFFF", "White")])[0]?.bind
        (fun row => row[1]?) = some (some q) ∧
      calculate_contrast_ratio "#000000" "#FFFFFF" = some q := by
  have h := create_contrast_matrix_spec [("#000000", "Black"), ("#FFFFFF", "White")]
    (by decide)
  refine ⟨h.1, ?_⟩
  obtain ⟨q, hq, hc⟩ := (h.2.2 0 1 (by norm_num) (by norm_num)).2.1 (by norm_num)
  exact ⟨q, hq, hc⟩

end VD24

namespace VD24

/-- Helper: with fewer than two palette entries the pair loop produces
nothing (there is no index pair `i < j`). -/
theorem accessible_pairs_unsorted_small (colors : List (String × String))
    (h : colors.length < 2) (matrix : List (List (Option ℝ))) :
    accessible_pairs_unsorted colors matrix = [] := by
  match colors with
  | [] => simp [accessible_pairs_unsorted]
  | [a] => simp [accessible_pairs_unsorted]
  | a :: b :: t => exact absurd h (by simp)

/-- C7 counterexample: on a one-color palette `get_accessible_pairings` does
return the empty list, but the summary-percentage computation of
`generate_html_report` divides by the pair count 0 and raises
`ZeroDivisionError` (modelled as `none`) instead of reporting N/A. -/
theorem one_color_palette_summary_raises :
    get_accessible_pairings [("#000000", "Black")]
        (create_contrast_matrix [("#000000", "Black")]) = [] ∧
    summary_percentages [("#000000", "Black")]
        (get_accessible_pairings [("#000000", "Black")]
          (create_contrast_matrix [("#000000", "Black")]))
        (get_cb_accessible
          (get_accessible_pairings [("#000000", "Black")]
            (create_contrast_matrix [("#000000", "Black")]))) = none := by
  have hp : get_accessible_pairings [("#000000", "Black")]
      (create_contrast_matrix [("#000000", "Black")]) = [] := by
    unfold get_accessible_pairings
    rw [accessible_pairs_unsorted_small _ (by norm_num) _]
    exact List.mergeSort_nil
  refine ⟨hp, ?_⟩
  rw [hp]
  simp [get_cb_accessible, summary_percentages, pyDiv]

/-- C7 (amended): for a palette of fewer than 2 colors the total pair count
`N*(N-1)//2` is 0 and `get_accessible_pairings` returns an empty list without
error, but the summary percentages are computed by dividing by the pair count
unconditionally, so the report generation raises `ZeroDivisionError`
(modelled as `none`) instead of reporting the percentages as N/A. -/
theorem small_palette_empty_pairs_and_zero_division (colors : List (String × String))
    (h : colors.length < 2) :
    colors.length * (colors.length - 1) / 2 = 0 ∧
    (∀ matrix, get_accessible_pairings colors matrix = []) ∧
    (∀ pairings cb_accessible, summary_percentages colors pairings cb_accessible = none) := by
  have htot : colors.length * (colors.length - 1) / 2 = 0 := by
    have h2 : colors.length = 0 ∨ colors.length = 1 := by omega
    rcases h2 with h0 | h1
    · rw [h0]
    · rw [h1]
  refine ⟨htot, ?_, ?_⟩
  · intro matrix
    unfold get_accessible_pairings
    rw [accessible_pairs_unsorted_small colors h matrix]
    exact List.mergeSort_nil
  · intro pairings cb_accessible
    simp [summary_percentages, pyDiv, htot]

/-- C7 witness for the amended claim: the empty palette. -/
theorem small_palette_empty_pairs_and_zero_division_witness :
    ([] : List (String × String)).length * (([] : List (String × String)).length - 1) / 2 = 0 ∧
    (∀ matrix, get_accessible_pairings [] matrix = []) ∧
    (∀ pairings cb_accessible, summary_percentages [] pairings cb_accessible = none) :=
  small_palette_empty_pairs_and_zero_division [] (by norm_num)

end VD24

namespace VD24

/-- Helper: a rating is in the accepted list `["AA18", "AA", "AAA"]` exactly
when the ratio is at least 3.0. -/
theorem rating_mem_iff (q : ℝ) :
    get_contrast_rating q ∈ (["AA18", "AA", "AAA"] : List String) ↔ 3.0 ≤ q := by
  unfold get_contrast_rating
  split_ifs with h1 h2 h3
  · exact iff_of_true (by decide) (by linarith)
  · exact iff_of_true (by decide) (by linarith)
  · exact iff_of_true (by decide) h3
  · exact iff_of_false (by decide) h3

/-- Helper: membership in the unsorted pair list, characterized through the
palette indices, under a fully valid palette. -/
theorem mem_accessible_pairs_unsorted (colors : List (String × String))
    (hvalid : ∀ p ∈ colors, (hex_to_rgb p.1).isSome) (pr : Pairing) :
    pr ∈ accessible_pairs_unsorted colors (create_contrast_matrix colors) ↔
      ∃ i j, ∃ (hi : i < colors.length) (hj : j < colors.length), i < j ∧
        ∃ q, calculate_contrast_ratio (colors[i]).1 (colors[j]).1 = some q ∧
          3.0 ≤ q ∧
          pr = ⟨(colors[i]).1, (colors[i]).2, (colors[j]).1, (colors[j]).2, q,
                get_contrast_rating q⟩ := by
  unfold accessible_pairs_unsorted
  rw [List.mem_flatMap]
  constructor
  · rintro ⟨p, hp, hmem⟩
    rw [List.mem_filterMap] at hmem
    obtain ⟨w, hw, heq⟩ := hmem
    rw [List.mem_enum_iff_getElem?] at hp hw
    obtain ⟨hi, hpi⟩ := List.getElem?_eq_some_iff.mp hp
    obtain ⟨hj, hwj⟩ := List.getElem?_eq_some_iff.mp hw
    by_cases hij : p.1 < w.1
    · rw [if_pos hij] at heq
      have hne : p.1 ≠ w.1 := Nat.ne_of_lt hij
      obtain ⟨q, hq⟩ := calculate_contrast_ratio_isSome (colors[p.1]).1 (colors[w.1]).1
        (hvalid _ (List.getElem_mem hi)) (hvalid _ (List.getElem_mem hj))
      rw [create_contrast_matrix_entry colors p.1 w.1 hi hj, if_neg hne, hq] at heq
      simp only [Option.some_bind] at heq
      by_cases hrat : get_contrast_rating q ∈ (["AA18", "AA", "AAA"] : List String)
      · rw [if_pos hrat] at heq
        refine ⟨p.1, w.1, hi, hj, hij, q, hq, (rating_mem_iff q).mp hrat, ?_⟩
        rw [← Option.some_inj.mp heq, ← hpi, ← hwj]
      · rw [if_neg hrat] at heq
        exact absurd heq (by simp)
    · rw [if_neg hij] at heq
      exact absurd heq (by simp)
  · rintro ⟨i, j, hi, hj, hij, q, hq, h3, rfl⟩
    refine ⟨(i, colors[i]), ?_, ?_⟩
    · rw [List.mem_enum_iff_getElem?]
      exact List.getElem?_eq_some_iff.mpr ⟨hi, rfl⟩
    · rw [List.mem_filterMap]
      refine ⟨(j, colors[j]), ?_, ?_⟩
      · rw [List.mem_enum_iff_getElem?]
        exact List.getElem?_eq_some_iff.mpr ⟨hj, rfl⟩
      · rw [if_pos hij, create_contrast_matrix_entry colors i j hi hj,
          if_neg (Nat.ne_of_lt hij), hq]
        simp only [Option.some_bind]
        rw [if_pos ((rating_mem_iff q).mpr h3)]

end VD24

namespace VD24

/-- Helper: the sort comparison used by `get_accessible_pairings` is
transitive. -/
theorem pair_le_trans : ∀ (a b c : Pairing),
    (fun a b : Pairing => decide (b.rval ≤ a.rval)) a b →
    (fun a b : Pairing => decide (b.rval ≤ a.rval)) b c →
    (fun a b : Pairing => decide (b.rval ≤ a.rval)) a c := by
  intro a b c h1 h2
  simp only [decide_eq_true_eq] at *
  linarith

/-- Helper: the sort comparison used by `get_accessible_pairings` is total. -/
theorem pair_le_total : ∀ (a b : Pairing),
    (fun a b : Pairing => decide (b.rval ≤ a.rval)) a b ||
    (fun a b : Pairing => decide (b.rval ≤ a.rval)) b a := by
  intro a b
  rcases le_total b.rval a.rval with h | h <;> simp [h]

/-- C5: `get_accessible_pairings` is a permutation of the lexicographic
`i < j` pair enumeration filtered to ratings in `{AA18, AA, AAA}` (each
unordered pair appears exactly once); a pair record is in the output iff its
indices satisfy `i < j` and its ratio is at least 3.0; the output is sorted
by descending ratio; and ties are broken stably, preserving the original
lexicographic enumeration order (for every ratio value, the sublist of
records with that ratio equals the corresponding sublist of the unsorted
enumeration). -/
theorem get_accessible_pairings_spec (colors : List (String × String))
    (hvalid : ∀ p ∈ colors, (hex_to_rgb p.1).isSome) :
    List.Perm (get_accessible_pairings colors (create_contrast_matrix colors))
      (accessible_pairs_unsorted colors (create_contrast_matrix colors)) ∧
    List.Pairwise (fun a b : Pairing => b.rval ≤ a.rval)
      (get_accessible_pairings colors (create_contrast_matrix colors)) ∧
    (∀ z : ℝ,
      List.filter (fun a : Pairing => decide (a.rval = z))
          (get_accessible_pairings colors (create_contrast_matrix colors)) =
        List.filter (fun a : Pairing => decide (a.rval = z))
          (accessible_pairs_unsorted colors (create_contrast_matrix colors))) ∧
    (∀ pr : Pairing,
      pr ∈ get_accessible_pairings colors (create_contrast_matrix colors) ↔
        ∃ i j, ∃ (hi : i < colors.length) (hj : j < colors.length), i < j ∧
          ∃ q, calculate_contrast_ratio (colors[i]).1 (colors[j]).1 = some q ∧
            3.0 ≤ q ∧
            pr = ⟨(colors[i]).1, (colors[i]).2, (colors[j]).1, (colors[j]).2, q,
                  get_contrast_rating q⟩) := by
  refine ⟨?_, ?_, ?_, ?_⟩
  · exact List.mergeSort_perm _ _
  · exact (List.sorted_mergeSort pair_le_trans pair_le_total _).imp
      (fun h => of_decide_eq_true h)
  · intro z
    have hall : ∀ a ∈ List.filter (fun a : Pairing => decide (a.rval = z))
        (accessible_pairs_unsorted colors (create_contrast_matrix colors)), a.rval = z :=
      fun a ha => of_decide_eq_true (List.mem_filter.mp ha).2
    have hpw : List.Pairwise
        (fun a b : Pairing => decide (b.rval ≤ a.rval) = true)
        (List.filter (fun a : Pairing => decide (a.rval = z))
          (accessible_pairs_unsorted colors (create_contrast_matrix colors))) := by
      apply List.pairwise_of_forall_mem_list
      intro a ha b hb
      rw [hall a ha, hall b hb]
      simp
    have hsub : List.Sublist
        (List.filter (fun a : Pairing => decide (a.rval = z))
          (accessible_pairs_unsorted colors (create_contrast_matrix colors)))
        (get_accessible_pairings colors (create_contrast_matrix colors)) :=
      List.sublist_mergeSort pair_le_trans pair_le_total hpw (List.filter_sublist _)
    have hsub2 := hsub.filter (fun a : Pairing => decide (a.rval = z))
    rw [List.filter_eq_self.mpr (fun a ha => (List.mem_filter.mp ha).2)] at hsub2
    have hperm : List.Perm
        (List.filter (fun a : Pairing => decide (a.rval = z))
          (get_accessible_pairings colors (create_contrast_matrix colors)))
        (List.filter (fun a : Pairing => decide (a.rval = z))
          (accessible_pairs_unsorted colors (create_contrast_matrix colors))) :=
      (List.mergeSort_perm _ _).filter _
    exact (hsub2.eq_of_length hperm.length_eq.symm).symm
  · intro pr
    rw [show get_accessible_pairings colors (create_contrast_matrix colors) =
        List.mergeSort (accessible_pairs_unsorted colors (create_contrast_matrix colors))
          (fun a b : Pairing => decide (b.rval ≤ a.rval)) from rfl,
      List.mem_mergeSort]
    exact mem_accessible_pairs_unsorted colors hvalid pr

/-- C5 witness: the specification of the accessible-pairs list instantiated
on the black/white palette. -/
theorem get_accessible_pairings_spec_witness :
    List.Perm (get_accessible_pairings [("#000000", "Black"), ("#FFFFFF", "White")]
        (create_contrast_matrix [("#000000", "Black"), ("#FFFFFF", "White")]))
      (accessible_pairs_unsorted [("#000000", "Black"), ("#FFFFFF", "White")]
        (create_contrast_matrix [("#000000", "Black"), ("#FFFFFF", "White")])) ∧
    List.Pairwise (fun a b : Pairing => b.rval ≤ a.rval)
      (get_accessible_pairings [("#000000", "Black"), ("#FFFFFF", "White")]
        (create_contrast_matrix [("#000000", "Black"), ("#FFFFFF", "White")])) := by
  have h := get_accessible_pairings_spec [("#000000", "Black"), ("#FFFFFF", "White")]
    (by decide)
  exact ⟨h.1, h.2.1⟩

end VD24
